import Mathlib

/- Shallow embedding of the swarm trading orchestrator
   (src/swarm/src/swarm.ts, src/swarm/src/trading.ts, src/swarm/src/llm.ts).

   Numbers (JS doubles used for SOL amounts, prices, percentages) are
   modelled as rationals; counters and timestamps as naturals.  The
   SQLite tables `positions` and `trade_history` are modelled as lists
   (insertion order), with AUTOINCREMENT ids threaded through the state.
   External gateways (Solana RPC balance, DexScreener token lookup,
   Jupiter swaps, the reasoning service) are parameters of each
   operation: an operation takes the gateway's reply as an argument, so
   theorems quantify over every possible gateway behaviour. -/

namespace Swarm

def emptyStr : String := ""

/-- Position status / close reason, stored in the `status` column
    (swarm.ts `Position.status`). -/
inductive PosStatus
  | OPEN
  | CLOSED
  | STOPPED
  | TP_HIT
deriving DecidableEq, Repr

/-- Trade side in the `trade_history` table. -/
inductive Side
  | BUY
  | SELL
deriving DecidableEq, Repr

/-- trading.ts `TradeResult`. -/
structure TradeResult where
  success : Bool
  txHash : Option String
  error : Option String
  inputAmount : ℚ
  outputAmount : Option ℚ
  price : Option ℚ
  timestamp : ℕ
deriving DecidableEq, Repr

/-- trading.ts `TokenInfo` (the fields the orchestrator reads). -/
structure TokenInfo where
  address : String
  symbol : String
  name : String
  mcap : ℚ
  price : ℚ
  volume24h : ℚ
  liquidity : ℚ
deriving DecidableEq, Repr

/-- swarm.ts `Position` — one row of the `positions` table. -/
structure Position where
  id : ℕ
  tokenAddress : String
  symbol : String
  entryPrice : ℚ
  entrySol : ℚ
  tokenAmount : ℚ
  tokenDecimals : ℕ
  currentPrice : ℚ
  pnlPct : ℚ
  status : PosStatus
  entryTx : String
  exitTx : Option String
  entryTime : ℕ
  exitTime : Option ℕ
  score : ℚ
  narrative : String
deriving DecidableEq, Repr

/-- One row of the append-only `trade_history` table.  `success` is the
    SQLite INTEGER 0/1 actually stored. -/
structure TradeHistoryRecord where
  tokenAddress : String
  symbol : String
  side : Side
  solAmount : ℚ
  tokenAmount : ℚ
  price : ℚ
  txHash : String
  success : ℕ
  error : String
  timestamp : ℕ
deriving DecidableEq, Repr

/-- swarm.ts `SwarmConfig`.  Absent string fields are the empty string
    (JS falsy), mirroring how index.ts defaults them. -/
structure SwarmConfig where
  openrouterKey : String
  model : String
  rpcUrl : String
  walletKey : String
  maxPositionSol : ℚ
  stopLossPct : ℚ
  takeProfitPct : ℚ
  maxConcurrentTrades : ℕ
  minScoreToTrade : ℚ
  scanIntervalMs : ℕ
  slippageBps : ℕ
deriving DecidableEq, Repr

/-- The mutable database state: `positions` and `trade_history` rows in
    insertion order, plus the next AUTOINCREMENT `positions.id`. -/
structure DBState where
  positions : List Position
  tradeHistory : List TradeHistoryRecord
  nextPosId : ℕ
deriving DecidableEq, Repr

def DBState.empty : DBState := ⟨[], [], 1⟩

/-- `SELECT COUNT(*) FROM positions WHERE status = 'OPEN'`
    (swarm.ts:559). -/
def openCount (s : DBState) : ℕ :=
  (s.positions.filter (fun p => p.status == PosStatus.OPEN)).length

/-- `SELECT * FROM positions WHERE token_address = ? AND status = 'OPEN'`
    is non-empty (swarm.ts:566). -/
def hasOpenFor (s : DBState) (addr : String) : Bool :=
  s.positions.any (fun p => p.tokenAddress == addr && p.status == PosStatus.OPEN)

/-- Number of OPEN rows for one token address. -/
def openForCount (s : DBState) (addr : String) : ℕ :=
  (s.positions.filter (fun p => p.tokenAddress == addr && p.status == PosStatus.OPEN)).length

/-- Outcome tag of `Swarm.executeTrade`, reflecting which early return
    (if any) was taken. -/
inductive ExecOutcome
  | noWallet
  | maxConcurrent
  | alreadyHolding
  | insufficientBalance
  | bought
  | buyFailed
deriving DecidableEq, Repr

/-- swarm.ts:575: `tradeSize = Math.min(config.maxPositionSol, solBal * 0.3)`. -/
def execTradeSize (cfg : SwarmConfig) (solBal : ℚ) : ℚ :=
  min cfg.maxPositionSol (solBal * (3 / 10))

/-- The `trade_history` row inserted by `executeTrade` (swarm.ts:594-598),
    success or failure. -/
def execBuyRec (cfg : SwarmConfig) (solBal : ℚ) (token : TokenInfo)
    (result : TradeResult) : TradeHistoryRecord :=
  { tokenAddress := token.address
    symbol := token.symbol
    side := Side.BUY
    solAmount := execTradeSize cfg solBal
    tokenAmount := result.outputAmount.getD 0
    price := result.price.getD 0
    txHash := result.txHash.getD emptyStr
    success := if result.success then 1 else 0
    error := result.error.getD emptyStr
    timestamp := result.timestamp }

/-- The `positions` row inserted by `executeTrade` on swap success
    (swarm.ts:602-606): entry at the scanner's token price,
    token_decimals hard-coded 6, pnl_pct left at its column default 0. -/
def execPos (cfg : SwarmConfig) (solBal : ℚ) (token : TokenInfo) (score : ℚ)
    (narrative : String) (result : TradeResult) (now : ℕ) (s : DBState) : Position :=
  { id := s.nextPosId
    tokenAddress := token.address
    symbol := token.symbol
    entryPrice := token.price
    entrySol := execTradeSize cfg solBal
    tokenAmount := result.outputAmount.getD 0
    tokenDecimals := 6
    currentPrice := token.price
    pnlPct := 0
    status := PosStatus.OPEN
    entryTx := result.txHash.getD emptyStr
    exitTx := none
    entryTime := now
    exitTime := none
    score := score
    narrative := narrative }

/-- swarm.ts:552-612 `Swarm.executeTrade`.  `hw` is whether a wallet is
    configured, `solBal` the live RPC balance in SOL, `result` the
    `executeBuy` swap-gateway reply, `now` the `Date.now()` stamp.
    Early returns in source order: no wallet, concurrency limit,
    already-holding, dust floor; then the ledger row is appended
    unconditionally and the position row only on success. -/
def executeTrade (cfg : SwarmConfig) (hw : Bool) (solBal : ℚ)
    (token : TokenInfo) (score : ℚ) (narrative : String)
    (result : TradeResult) (now : ℕ) (s : DBState) : DBState × ExecOutcome :=
  if hw = false then (s, ExecOutcome.noWallet)
  else if cfg.maxConcurrentTrades ≤ openCount s then (s, ExecOutcome.maxConcurrent)
  else if hasOpenFor s token.address then (s, ExecOutcome.alreadyHolding)
  else if execTradeSize cfg solBal < 5 / 1000 then (s, ExecOutcome.insufficientBalance)
  else if result.success then
    ({ s with
        tradeHistory := s.tradeHistory ++ [execBuyRec cfg solBal token result]
        positions := s.positions ++ [execPos cfg solBal token score narrative result now s]
        nextPosId := s.nextPosId + 1 },
     ExecOutcome.bought)
  else
    ({ s with tradeHistory := s.tradeHistory ++ [execBuyRec cfg solBal token result] },
     ExecOutcome.buyFailed)

def manualNarrative : String := "Manual"

/-- The `trade_history` row inserted by `manualBuy` (swarm.ts:669-673),
    using the caller-supplied `solAmount`. -/
def manualBuyRec (token : TokenInfo) (tokenAddress : String) (solAmount : ℚ)
    (result : TradeResult) : TradeHistoryRecord :=
  { tokenAddress := tokenAddress
    symbol := token.symbol
    side := Side.BUY
    solAmount := solAmount
    tokenAmount := result.outputAmount.getD 0
    price := result.price.getD 0
    txHash := result.txHash.getD emptyStr
    success := if result.success then 1 else 0
    error := result.error.getD emptyStr
    timestamp := result.timestamp }

/-- The `positions` row inserted by `manualBuy` on swap success
    (swarm.ts:676-680): token_decimals 6, score 0, narrative 'Manual'. -/
def manualPos (token : TokenInfo) (tokenAddress : String) (solAmount : ℚ)
    (result : TradeResult) (now : ℕ) (s : DBState) : Position :=
  { id := s.nextPosId
    tokenAddress := tokenAddress
    symbol := token.symbol
    entryPrice := token.price
    entrySol := solAmount
    tokenAmount := result.outputAmount.getD 0
    tokenDecimals := 6
    currentPrice := token.price
    pnlPct := 0
    status := PosStatus.OPEN
    entryTx := result.txHash.getD emptyStr
    exitTx := none
    entryTime := now
    exitTime := none
    score := 0
    narrative := manualNarrative }

/-- swarm.ts:653-687 `Swarm.manualBuy`.  `tokenLookup` is the
    `getTokenByAddress` gateway reply; `result` the `executeBuy` reply.
    The only refusals are a missing wallet and a failed token lookup:
    no concurrency-limit, duplicate-position or dust-floor check.
    Returns the new state and the value returned to the HTTP caller. -/
def manualBuy (hw : Bool) (tokenLookup : Option TokenInfo)
    (tokenAddress : String) (solAmount : ℚ)
    (result : TradeResult) (now : ℕ) (s : DBState) : DBState × Option TradeResult :=
  if hw = false then (s, none)
  else
    match tokenLookup with
    | none => (s, none)
    | some token =>
      if result.success then
        ({ s with
            tradeHistory := s.tradeHistory ++ [manualBuyRec token tokenAddress solAmount result]
            positions :=
              s.positions ++ [manualPos token tokenAddress solAmount result now s]
            nextPosId := s.nextPosId + 1 },
         some result)
      else
        ({ s with
            tradeHistory :=
              s.tradeHistory ++ [manualBuyRec token tokenAddress solAmount result] },
         some result)

/-- JS `result.price || pos.current_price` in swarm.ts:641: a missing or
    zero (falsy) sale price falls back to the stored current price. -/
def salePrice (res : TradeResult) (fallback : ℚ) : ℚ :=
  match res.price with
  | some pr => if pr = 0 then fallback else pr
  | none => fallback

/-- swarm.ts:614-647 `Swarm.closePosition`.  `result` is the
    `executeSell` gateway reply, consumed only if the position is found
    and OPEN.  On sell success the UPDATE writes the close `reason` into
    `status`, the exit tx/time, `current_price` (sale price with falsy
    fallback) and writes `pnl_pct` back at its pre-sell value. -/
def closePosition (hw : Bool) (positionId : ℕ) (reason : PosStatus)
    (result : TradeResult) (now : ℕ) (s : DBState) : DBState :=
  if hw = false then s
  else
    match s.positions.find? (fun p => p.id == positionId) with
    | none => s
    | some pos =>
      if pos.status ≠ PosStatus.OPEN then s
      else
        let histRec : TradeHistoryRecord :=
          { tokenAddress := pos.tokenAddress
            symbol := pos.symbol
            side := Side.SELL
            solAmount := result.outputAmount.getD 0
            tokenAmount := pos.tokenAmount
            price := result.price.getD 0
            txHash := result.txHash.getD emptyStr
            success := if result.success then 1 else 0
            error := result.error.getD emptyStr
            timestamp := result.timestamp }
        let s1 : DBState := { s with tradeHistory := s.tradeHistory ++ [histRec] }
        if result.success then
          { s1 with positions := s1.positions.map (fun p =>
              if p.id == positionId then
                { p with status := reason
                         exitTx := some (result.txHash.getD emptyStr)
                         exitTime := some now
                         currentPrice := salePrice result pos.currentPrice
                         pnlPct := pos.pnlPct }
              else p) }
        else s1

/-- swarm.ts:689-704 `Swarm.manualSell`: refuses without a wallet,
    looks the position up `WHERE id = ? AND status = 'OPEN'`, and
    otherwise routes through `closePosition` with reason CLOSED.  The
    returned Bool models whether a non-null TradeResult was returned. -/
def manualSell (hw : Bool) (positionId : ℕ) (result : TradeResult) (now : ℕ)
    (s : DBState) : DBState × Bool :=
  if hw = false then (s, false)
  else
    match s.positions.find? (fun p => p.id == positionId && p.status == PosStatus.OPEN) with
    | none => (s, false)
    | some _ => (closePosition hw positionId PosStatus.CLOSED result now s, true)

/-- The per-row effect of one price-updater iteration for snapshot
    element `pos` (swarm.ts:535-541): if the token fetch succeeded, the
    UPDATE touches exactly the rows `WHERE id = pos.id`, setting
    `current_price` and `pnl_pct = (price − entry)/entry × 100`. -/
def puRowStep (fetch : String → Option TokenInfo) (r : Position) (pos : Position) : Position :=
  match fetch pos.tokenAddress with
  | some td =>
    if r.id = pos.id then
      { r with currentPrice := td.price
               pnlPct := (td.price - pos.entryPrice) / pos.entryPrice * 100 }
    else r
  | none => r

/-- One iteration of the price-updater loop on the whole state. -/
def puStep (fetch : String → Option TokenInfo) (st : DBState) (pos : Position) : DBState :=
  match fetch pos.tokenAddress with
  | some td =>
    { st with positions := st.positions.map (fun p =>
        if p.id = pos.id then
          { p with currentPrice := td.price
                   pnlPct := (td.price - pos.entryPrice) / pos.entryPrice * 100 }
        else p) }
  | none => st

/-- swarm.ts:529-546 `Swarm.runPriceUpdater`: snapshot the OPEN
    positions, then for each one fetch live token data and update that
    row; a failed fetch (`getTokenByAddress` returning null, or a thrown
    error swallowed by the empty catch) leaves the row untouched and the
    loop continues with the remaining positions. -/
def runPriceUpdater (fetch : String → Option TokenInfo) (s : DBState) : DBState :=
  (s.positions.filter (fun p => p.status == PosStatus.OPEN)).foldl (puStep fetch) s

/-- swarm.ts:488-506, the rule cascade of `Swarm.runRiskManager` for one
    OPEN position: stop-loss first, else take-profit, else the live
    liquidity emergency check (`liqFetch` is the `getTokenByAddress`
    reply).  Returns the close reason passed to `closePosition`, or
    `none` when no rule fires. -/
def riskDecision (cfg : SwarmConfig) (liqFetch : String → Option TokenInfo)
    (pos : Position) : Option PosStatus :=
  if pos.pnlPct ≤ -cfg.stopLossPct then some PosStatus.STOPPED
  else if cfg.takeProfitPct ≤ pos.pnlPct then some PosStatus.TP_HIT
  else
    match liqFetch pos.tokenAddress with
    | some td => if td.liquidity < 3000 then some PosStatus.STOPPED else none
    | none => none

/-- The list of `closePosition` calls one risk-manager tick issues
    (swarm.ts:481-507): one optional close per snapshot OPEN position. -/
def riskTickActions (cfg : SwarmConfig) (liqFetch : String → Option TokenInfo)
    (s : DBState) : List (ℕ × PosStatus) :=
  (s.positions.filter (fun p => p.status == PosStatus.OPEN)).filterMap
    (fun p => (riskDecision cfg liqFetch p).map (fun r => (p.id, r)))

/-- What `Swarm.start` leaves behind: which agents were marked running,
    which synchronous scan passes ran, and the repeating tasks pushed
    into `this.intervals` with their periods in ms. -/
structure StartOutcome where
  agentsSetRunning : List String
  initialPasses : List String
  scheduled : List (String × ℕ)
deriving DecidableEq, Repr

def narrativeAgent : String := "narrative"
def hunterAgent : String := "hunter"
def whaleAgent : String := "whale"
def riskAgent : String := "risk"
def executorAgent : String := "executor"
def backtestAgent : String := "backtest"

def priceUpdaterTask : String := "priceUpdater"

def abortedStart : StartOutcome := ⟨[], [], []⟩

/-- swarm.ts:219-290 `Swarm.start` (called on a non-running swarm).
    JS falsiness: a missing `openrouterKey`/`rpcUrl`/`walletKey` is the
    empty string, a missing `scanIntervalMs` is 0 and defaults to 60000
    via `this.config.scanIntervalMs || 60000`.  `walletLoadOk` models
    whether `createWallet` + the initial balance fetch succeed; on
    failure start returns before any agent is marked running.  On
    success all six agents are marked running, one narrative-scan and
    one hunter-scan pass run synchronously, and exactly four repeating
    tasks are scheduled. -/
def start (cfg : SwarmConfig) (walletLoadOk : Bool) : StartOutcome :=
  if cfg.openrouterKey = emptyStr then abortedStart
  else if cfg.rpcUrl = emptyStr then abortedStart
  else if cfg.walletKey ≠ emptyStr ∧ walletLoadOk = false then abortedStart
  else
    let scanInterval := if cfg.scanIntervalMs = 0 then 60000 else cfg.scanIntervalMs
    { agentsSetRunning :=
        [narrativeAgent, hunterAgent, whaleAgent, riskAgent, executorAgent, backtestAgent]
      initialPasses := [narrativeAgent, hunterAgent]
      scheduled :=
        [(narrativeAgent, scanInterval * 2), (hunterAgent, scanInterval),
         (riskAgent, 30000), (priceUpdaterTask, 20000)] }

/-- llm.ts `llmScore` reply shape. -/
structure ScoreResult where
  score : ℚ
  reasoning : String
  signal : String
deriving DecidableEq, Repr

structure NarrativeItem where
  name : String
  score : ℚ
  tokens : List String
  trend : String
deriving DecidableEq, Repr

structure NarrativeAnalysis where
  narratives : List NarrativeItem
deriving DecidableEq, Repr

def fenceJsonNl : String := "```json\n"
def fenceJson : String := "```json"
def fence : String := "```"

/-- llm.ts:66/91: strip code fences from the raw reasoning response and
    trim.  JS runs one global pass of the pattern fenceJson + optional
    newline, then one of the bare fence; the optional-newline
    alternative is rendered as two sequential replaces. -/
def cleanLLMResponse (raw : String) : String :=
  (((raw.replace fenceJsonNl emptyStr).replace fenceJson emptyStr).replace
    fence emptyStr).trim

def parseFailureReasoning : String := "Failed to parse LLM response"
def skipSignal : String := "SKIP"

/-- llm.ts:48-71 `llmScore`, with JSON.parse of the cleaned text
    abstracted as the `parse` oracle (`none` = the SyntaxError branch).
    The catch swallows the failure and yields the sentinel. -/
def llmScore (parse : String → Option ScoreResult) (raw : String) : ScoreResult :=
  match parse (cleanLLMResponse raw) with
  | some r => r
  | none => { score := 0, reasoning := parseFailureReasoning, signal := skipSignal }

/-- llm.ts:73-96 `llmNarrativeAnalysis`, same parse abstraction; the
    catch yields the empty narrative set. -/
def llmNarrativeAnalysis (parse : String → Option NarrativeAnalysis)
    (raw : String) : NarrativeAnalysis :=
  match parse (cleanLLMResponse raw) with
  | some r => r
  | none => { narratives := [] }

/-- trading.ts:294-301, the catch branch of `executeBuy`: a failed swap
    returns success=false with `error: e.message || String(e)`, i.e. the
    exception message when non-empty (JS truthiness), else the string
    rendering of the exception value. -/
def executeBuyFailure (solAmount : ℚ) (eMessage : String) (eString : String)
    (now : ℕ) : TradeResult :=
  { success := false
    txHash := none
    error := some (if eMessage = emptyStr then eString else eMessage)
    inputAmount := solAmount
    outputAmount := none
    price := none
    timestamp := now }

/-- trading.ts:314, `executeSell`'s raw amount:
    `Math.floor(tokenAmount * Math.pow(10, tokenDecimals))`. -/
def sellRawAmount (tokenAmount : ℚ) (tokenDecimals : ℕ) : ℤ :=
  ⌊tokenAmount * 10 ^ tokenDecimals⌋

/-- A buy event: either the autonomous Executor path (`executeTrade`,
    reached from the Coin Hunter) or the external-API path
    (`manualBuy`), each bundled with the gateway replies it consumes. -/
inductive BuyEvent
  | auto (hw : Bool) (solBal : ℚ) (token : TokenInfo) (score : ℚ)
      (narrative : String) (result : TradeResult) (now : ℕ)
  | manual (hw : Bool) (tokenLookup : Option TokenInfo) (tokenAddress : String)
      (solAmount : ℚ) (result : TradeResult) (now : ℕ)

def BuyEvent.isAuto : BuyEvent → Bool
  | BuyEvent.auto _ _ _ _ _ _ _ => true
  | BuyEvent.manual _ _ _ _ _ _ => false

def buyStep (cfg : SwarmConfig) (s : DBState) : BuyEvent → DBState
  | BuyEvent.auto hw bal tok sc narr res now =>
    (executeTrade cfg hw bal tok sc narr res now s).1
  | BuyEvent.manual hw tl addr amt res now =>
    (manualBuy hw tl addr amt res now s).1

/-- The state reached from `s` by a sequence of buy events. -/
def reach (cfg : SwarmConfig) (s : DBState) (evs : List BuyEvent) : DBState :=
  evs.foldl (buyStep cfg) s

/- ============================================================
   Concrete fixtures used by counterexamples and witnesses
   ============================================================ -/

def addrA : String := "TokenAddressA"
def addrB : String := "TokenAddressB"
def txStr : String := "txhash"
def keyStr : String := "apikey"
def urlStr : String := "rpcurl"
def walletStr : String := "walletkey"
def narrStr : String := "AI agents"
def symA : String := "ALPHA"
def symB : String := "BETA"
def nameA : String := "Alpha Coin"
def nameB : String := "Beta Coin"

def tokA : TokenInfo :=
  { address := addrA, symbol := symA, name := nameA, mcap := 100000, price := 1,
    volume24h := 5000, liquidity := 10000 }

def tokB : TokenInfo :=
  { address := addrB, symbol := symB, name := nameB, mcap := 200000, price := 2,
    volume24h := 6000, liquidity := 20000 }

def okResult : TradeResult :=
  { success := true, txHash := some txStr, error := none, inputAmount := 1,
    outputAmount := some 100, price := some 1, timestamp := 0 }

/-- maxConcurrentTrades = 1, the README defaults otherwise. -/
def cfgOne : SwarmConfig :=
  { openrouterKey := keyStr, model := emptyStr, rpcUrl := urlStr, walletKey := walletStr,
    maxPositionSol := 1, stopLossPct := 30, takeProfitPct := 100,
    maxConcurrentTrades := 1, minScoreToTrade := 80, scanIntervalMs := 60000,
    slippageBps := 500 }

def mbA : BuyEvent := BuyEvent.manual true (some tokA) addrA 1 okResult 0
def mbB : BuyEvent := BuyEvent.manual true (some tokB) addrB 1 okResult 0

/- ============================================================
   C1 — open-position count vs maxConcurrentTrades
   ============================================================ -/

/-- C1, counterexample.  The claim says every state reachable by
    autonomous `executeTrade` buys and `manualBuy` buys keeps
    count(status=OPEN) ≤ maxConcurrentTrades.  It is false:
    `manualBuy` never checks the limit.  With maxConcurrentTrades = 1,
    two successful manual buys from the empty database reach a state
    with two OPEN positions. -/
theorem manualBuy_exceeds_maxConcurrent :
    openCount (reach cfgOne DBState.empty [mbA, mbB]) = 2 ∧
    cfgOne.maxConcurrentTrades = 1 := by decide

/-- Either `executeTrade` leaves the positions table unchanged, or both
    guards passed and exactly the `execPos` row was appended. -/
lemma executeTrade_positions_cases (cfg : SwarmConfig) (hw : Bool) (bal : ℚ)
    (tok : TokenInfo) (sc : ℚ) (narr : String) (res : TradeResult) (now : ℕ)
    (s : DBState) :
    (executeTrade cfg hw bal tok sc narr res now s).1.positions = s.positions ∨
    (openCount s < cfg.maxConcurrentTrades ∧ hasOpenFor s tok.address = false ∧
     (executeTrade cfg hw bal tok sc narr res now s).1.positions =
       s.positions ++ [execPos cfg bal tok sc narr res now s]) := by
  simp only [executeTrade]
  split
  · exact Or.inl rfl
  split
  · exact Or.inl rfl
  split
  · exact Or.inl rfl
  split
  · exact Or.inl rfl
  split
  · rename_i hhw hmax hheld hdust hsucc
    exact Or.inr ⟨Nat.not_le.mp hmax, by simpa using hheld, rfl⟩
  · exact Or.inl rfl

lemma executeTrade_step_openCount (cfg : SwarmConfig) (hw : Bool) (bal : ℚ)
    (tok : TokenInfo) (sc : ℚ) (narr : String) (res : TradeResult) (now : ℕ)
    (s : DBState) (h : openCount s ≤ cfg.maxConcurrentTrades) :
    openCount (executeTrade cfg hw bal tok sc narr res now s).1 ≤
      cfg.maxConcurrentTrades := by
  rcases executeTrade_positions_cases cfg hw bal tok sc narr res now s with
    hcase | ⟨hlt, _, hcase⟩
  · simpa [openCount, hcase] using h
  · have hstep : openCount (executeTrade cfg hw bal tok sc narr res now s).1 =
        openCount s + 1 := by
      simp [openCount, hcase, List.filter_append, execPos]
    omega

/-- C1, amended.  The bound does hold for the autonomous path: any
    sequence of `executeTrade` buys (any wallet/balance/gateway
    results) from a state within the bound stays within the bound. -/
theorem executeTrade_reach_openCount_le (cfg : SwarmConfig) (evs : List BuyEvent)
    (s : DBState) (hauto : ∀ e ∈ evs, e.isAuto = true)
    (h : openCount s ≤ cfg.maxConcurrentTrades) :
    openCount (reach cfg s evs) ≤ cfg.maxConcurrentTrades := by
  induction evs generalizing s with
  | nil => exact h
  | cons e evs ih =>
    simp only [reach, List.foldl_cons]
    have he : e.isAuto = true := hauto e (List.mem_cons_self _ _)
    cases e with
    | auto hw bal tok sc narr res now =>
      exact ih _ (fun x hx => hauto x (List.mem_cons_of_mem _ hx))
        (executeTrade_step_openCount cfg hw bal tok sc narr res now s h)
    | manual hw tl addr amt res now => simp [BuyEvent.isAuto] at he

theorem executeTrade_reach_openCount_le_witness :
    openCount (reach cfgOne DBState.empty
      [BuyEvent.auto true 10 tokA 90 narrStr okResult 0]) ≤
      cfgOne.maxConcurrentTrades :=
  executeTrade_reach_openCount_le cfgOne
    [BuyEvent.auto true 10 tokA 90 narrStr okResult 0] DBState.empty
    (by decide) (by decide)

/- ============================================================
   C2 — at most one OPEN position per token address
   ============================================================ -/

/-- C2, counterexample.  The claim says every buy on a token that
    already has an OPEN position is a skip, so at most one OPEN row
    exists per tokenAddress.  False: `manualBuy` never checks for an
    existing OPEN position; two successful manual buys of the same
    token produce two OPEN rows for that address. -/
theorem manualBuy_duplicate_open_position :
    openForCount (reach cfgOne DBState.empty [mbA, mbA]) addrA = 2 := by decide

lemma hasOpenFor_false_count (s : DBState) (a : String)
    (h : hasOpenFor s a = false) : openForCount s a = 0 := by
  simp only [hasOpenFor, List.any_eq_false] at h
  simp only [openForCount, List.length_eq_zero, List.filter_eq_nil_iff]
  exact fun p hp => h p hp

/-- C2, amended.  The per-token uniqueness does hold for the autonomous
    path: `executeTrade` on a token with an existing OPEN position
    (when the wallet is set and the concurrency limit is not yet hit,
    so that the duplicate check is reached) skips without touching the
    tables, and `executeTrade` preserves "at most one OPEN row per
    address"; `manualBuy` does not. -/
theorem executeTrade_unique_open (cfg : SwarmConfig) (bal : ℚ) (tok : TokenInfo)
    (sc : ℚ) (narr : String) (res : TradeResult) (now : ℕ) (s : DBState) (addr : String)
    (hdup : ∀ a, openForCount s a ≤ 1) :
    (openCount s < cfg.maxConcurrentTrades → hasOpenFor s tok.address = true →
       executeTrade cfg true bal tok sc narr res now s = (s, ExecOutcome.alreadyHolding)) ∧
    openForCount (executeTrade cfg true bal tok sc narr res now s).1 addr ≤ 1 := by
  constructor
  · intro hmax hheld
    simp [executeTrade, Nat.not_le.mpr hmax, hheld]
  · rcases executeTrade_positions_cases cfg true bal tok sc narr res now s with
      hcase | ⟨hlt, hheld, hcase⟩
    · simpa [openForCount, hcase] using hdup addr
    · by_cases ha : tok.address = addr
      · have h0 : openForCount s addr = 0 := by
          refine hasOpenFor_false_count s addr ?_
          rw [← ha]
          exact hheld
        have hstep : openForCount (executeTrade cfg true bal tok sc narr res now s).1 addr =
            openForCount s addr + 1 := by
          simp [openForCount, hcase, List.filter_append, execPos, ha]
        omega
      · have hstep : openForCount (executeTrade cfg true bal tok sc narr res now s).1 addr =
            openForCount s addr := by
          simp [openForCount, hcase, List.filter_append, execPos, ha]
        rw [hstep]
        exact hdup addr

def sHolding : DBState := (manualBuy true (some tokA) addrA 1 okResult 0 DBState.empty).1

/-- maxConcurrentTrades = 2 so that the duplicate check is reachable
    with one position already open. -/
def cfgTwo : SwarmConfig := { cfgOne with maxConcurrentTrades := 2 }

theorem executeTrade_unique_open_witness :
    (executeTrade cfgTwo true 10 tokA 90 narrStr okResult 0 sHolding =
       (sHolding, ExecOutcome.alreadyHolding)) ∧
    openForCount (executeTrade cfgTwo true 10 tokA 90 narrStr okResult 0 sHolding).1
      addrA ≤ 1 := by
  have hdup : ∀ a, openForCount sHolding a ≤ 1 :=
    fun a => le_trans (List.length_filter_le _ _) (by decide)
  exact ⟨(executeTrade_unique_open cfgTwo 10 tokA 90 narrStr okResult 0 sHolding addrA
      hdup).1 (by decide) (by decide),
    (executeTrade_unique_open cfgTwo 10 tokA 90 narrStr okResult 0 sHolding addrA hdup).2⟩

/- ============================================================
   C3 — manual trades vs the Executor pipeline
   ============================================================ -/

/-- C3, counterexample.  The claim says `manualBuy` performs the same
    refusal checks as the scheduler-driven Executor.  False: on the
    identical state (one OPEN position, maxConcurrentTrades = 1) and
    the identical successful swap reply, `executeTrade` refuses with
    the max-concurrent check and leaves the state untouched, while
    `manualBuy` proceeds and inserts a new position row. -/
theorem manualBuy_skips_executor_checks :
    (executeTrade cfgOne true 10 tokB 90 narrStr okResult 0 sHolding).2 =
      ExecOutcome.maxConcurrent ∧
    (executeTrade cfgOne true 10 tokB 90 narrStr okResult 0 sHolding).1 = sHolding ∧
    (manualBuy true (some tokB) addrB 1 okResult 0 sHolding).1.positions.length =
      sHolding.positions.length + 1 := by decide

/-- C3, amended.  `manualBuy` shares only the swap call and the
    ledger/position writes with the Executor pipeline: with a wallet and
    a successful token lookup it always appends one BUY ledger row and
    (on swap success) one OPEN position with narrative 'Manual' and
    score 0 at the caller-supplied solAmount — performing no
    max-concurrent, duplicate-position or dust-floor check — and
    `manualSell` on an OPEN position routes through `closePosition`
    with reason CLOSED. -/
theorem manualBuy_manual_tag (tl : TokenInfo) (addr : String) (amt : ℚ)
    (res : TradeResult) (now : ℕ) (s : DBState) (pid : ℕ) (pos : Position)
    (hres : res.success = true)
    (hfind : s.positions.find?
      (fun p => p.id == pid && p.status == PosStatus.OPEN) = some pos) :
    ((manualBuy true (some tl) addr amt res now s).1.positions =
       s.positions ++ [manualPos tl addr amt res now s] ∧
     (manualPos tl addr amt res now s).narrative = manualNarrative ∧
     (manualPos tl addr amt res now s).score = 0 ∧
     (manualPos tl addr amt res now s).status = PosStatus.OPEN ∧
     (manualPos tl addr amt res now s).entrySol = amt ∧
     (manualBuy true (some tl) addr amt res now s).1.tradeHistory =
       s.tradeHistory ++ [manualBuyRec tl addr amt res] ∧
     (manualBuyRec tl addr amt res).side = Side.BUY ∧
     (manualBuyRec tl addr amt res).success = 1) ∧
    manualSell true pid res now s =
      (closePosition true pid PosStatus.CLOSED res now s, true) := by
  refine ⟨⟨?_, rfl, rfl, rfl, rfl, ?_, rfl, ?_⟩, ?_⟩
  · simp [manualBuy, hres]
  · simp [manualBuy, hres]
  · simp [manualBuyRec, hres]
  · simp [manualSell, hfind]

def posHeld : Position := manualPos tokA addrA 1 okResult 0 DBState.empty

theorem manualBuy_manual_tag_witness :
    (manualPos tokB addrB 1 okResult 0 sHolding).narrative = manualNarrative ∧
    (manualPos tokB addrB 1 okResult 0 sHolding).score = 0 :=
  ⟨(manualBuy_manual_tag tokB addrB 1 okResult 0 sHolding 1 posHeld
      (by decide) (by decide)).1.2.1,
   (manualBuy_manual_tag tokB addrB 1 okResult 0 sHolding 1 posHeld
      (by decide) (by decide)).1.2.2.1⟩

/- ============================================================
   C10 — hard-coded tokenDecimals = 6 and the sell scaling
   ============================================================ -/

lemma manualBuy_positions_cases (hw : Bool) (tl : Option TokenInfo) (addr : String)
    (amt : ℚ) (res : TradeResult) (now : ℕ) (s : DBState) :
    (manualBuy hw tl addr amt res now s).1.positions = s.positions ∨
    ∃ token, tl = some token ∧
      (manualBuy hw tl addr amt res now s).1.positions =
        s.positions ++ [manualPos token addr amt res now s] := by
  cases tl with
  | none =>
    refine Or.inl ?_
    simp only [manualBuy]
    split <;> rfl
  | some token =>
    simp only [manualBuy]
    split
    · exact Or.inl rfl
    split
    · exact Or.inr ⟨token, rfl, rfl⟩
    · exact Or.inl rfl

/-- C10.  Every positions row ever inserted — by `executeTrade` and by
    `manualBuy` — carries tokenDecimals = 6 regardless of the token's
    real decimals, and `executeSell`'s raw amount for such a row is
    floor(tokenAmount × 10^6). -/
theorem positions_tokenDecimals_six (cfg : SwarmConfig) (hw : Bool) (bal : ℚ)
    (tok : TokenInfo) (sc : ℚ) (narr : String) (res : TradeResult) (now : ℕ)
    (s : DBState) (hw2 : Bool) (tl : Option TokenInfo) (addr : String) (amt : ℚ)
    (res2 : TradeResult) (now2 : ℕ) (s2 : DBState) :
    ((executeTrade cfg hw bal tok sc narr res now s).1.positions = s.positions ∨
      ∃ p, (executeTrade cfg hw bal tok sc narr res now s).1.positions =
          s.positions ++ [p] ∧ p.tokenDecimals = 6 ∧
        sellRawAmount p.tokenAmount p.tokenDecimals = ⌊p.tokenAmount * 1000000⌋) ∧
    ((manualBuy hw2 tl addr amt res2 now2 s2).1.positions = s2.positions ∨
      ∃ p, (manualBuy hw2 tl addr amt res2 now2 s2).1.positions =
          s2.positions ++ [p] ∧ p.tokenDecimals = 6 ∧
        sellRawAmount p.tokenAmount p.tokenDecimals = ⌊p.tokenAmount * 1000000⌋) := by
  constructor
  · rcases executeTrade_positions_cases cfg hw bal tok sc narr res now s with
      hcase | ⟨_, _, hcase⟩
    · exact Or.inl hcase
    · refine Or.inr ⟨_, hcase, rfl, ?_⟩
      norm_num [sellRawAmount, execPos]
  · rcases manualBuy_positions_cases hw2 tl addr amt res2 now2 s2 with
      hcase | ⟨token, _, hcase⟩
    · exact Or.inl hcase
    · refine Or.inr ⟨_, hcase, rfl, ?_⟩
      norm_num [sellRawAmount, manualPos]

/- ============================================================
   C5 — start(): abort conditions and the scheduled tasks
   ============================================================ -/

/-- C5, counterexample.  The claim says `start` aborts exactly when the
    credential or the endpoint is absent, and otherwise marks all
    agents running and schedules the four loops.  False: with both
    present but a configured wallet key that fails to load
    (swarm.ts:241-249), start returns before marking any agent running
    and schedules nothing. -/
theorem start_aborts_on_wallet_error :
    cfgOne.openrouterKey ≠ emptyStr ∧ cfgOne.rpcUrl ≠ emptyStr ∧
    cfgOne.walletKey ≠ emptyStr ∧ start cfgOne false = abortedStart := by decide

/-- C5, amended.  `start` aborts (no agents marked running, nothing
    scheduled) when the credential or endpoint is absent; otherwise,
    provided a configured wallet key loads successfully (or none is
    set), it marks all six agents running, runs one narrative-scan then
    one hunter-scan pass, and schedules exactly four repeating tasks:
    narrative at 2×scanInterval, hunter at scanInterval (scanIntervalMs
    defaulting to 60000 when zero/absent), risk at fixed 30 s, price
    updater at fixed 20 s. -/
theorem start_schedules_four_tasks (cfg : SwarmConfig) (wl : Bool) :
    ((cfg.openrouterKey = emptyStr ∨ cfg.rpcUrl = emptyStr) →
       start cfg wl = abortedStart) ∧
    (cfg.openrouterKey ≠ emptyStr → cfg.rpcUrl ≠ emptyStr →
      (cfg.walletKey = emptyStr ∨ wl = true) →
      start cfg wl =
        { agentsSetRunning := [narrativeAgent, hunterAgent, whaleAgent, riskAgent,
            executorAgent, backtestAgent]
          initialPasses := [narrativeAgent, hunterAgent]
          scheduled :=
            [(narrativeAgent,
                (if cfg.scanIntervalMs = 0 then 60000 else cfg.scanIntervalMs) * 2),
             (hunterAgent, if cfg.scanIntervalMs = 0 then 60000 else cfg.scanIntervalMs),
             (riskAgent, 30000), (priceUpdaterTask, 20000)] }) := by
  constructor
  · rintro (h | h) <;> simp [start, h]
  · intro h1 h2 h3
    have hw : ¬(cfg.walletKey ≠ emptyStr ∧ wl = false) := by
      rcases h3 with h3 | h3
      · exact fun hc => hc.1 h3
      · simp [h3]
    simp [start, h1, h2, hw]

theorem start_schedules_four_tasks_witness :
    start cfgOne true =
      ⟨[narrativeAgent, hunterAgent, whaleAgent, riskAgent, executorAgent,
        backtestAgent], [narrativeAgent, hunterAgent],
       [(narrativeAgent, 120000), (hunterAgent, 60000), (riskAgent, 30000),
        (priceUpdaterTask, 20000)]⟩ := by
  rw [(start_schedules_four_tasks cfgOne true).2 (by decide) (by decide) (Or.inr rfl)]
  decide

/- ============================================================
   C7 — failed swap: ledger row, no position row
   ============================================================ -/

/-- C7.  When the swap gateway's buy fails during an Executor buy (the
    `executeBuy` catch branch, reached once the four guards passed),
    exactly one BUY trade_history row with success = 0 and a non-empty
    error is appended, and the positions table is unchanged.  `em`/`es`
    model the JS exception's `.message` and `String(e)` rendering; the
    latter is non-empty for every Error value. -/
theorem failed_buy_ledger_no_position (cfg : SwarmConfig) (bal : ℚ) (tok : TokenInfo)
    (sc : ℚ) (narr : String) (now : ℕ) (s : DBState) (amt : ℚ) (em es : String)
    (hmax : openCount s < cfg.maxConcurrentTrades)
    (hheld : hasOpenFor s tok.address = false)
    (hsize : ¬ execTradeSize cfg bal < 5 / 1000)
    (hes : es ≠ emptyStr) :
    (executeTrade cfg true bal tok sc narr (executeBuyFailure amt em es now) now s).2 =
      ExecOutcome.buyFailed ∧
    (executeTrade cfg true bal tok sc narr
        (executeBuyFailure amt em es now) now s).1.positions = s.positions ∧
    (executeTrade cfg true bal tok sc narr
        (executeBuyFailure amt em es now) now s).1.tradeHistory =
      s.tradeHistory ++ [execBuyRec cfg bal tok (executeBuyFailure amt em es now)] ∧
    (execBuyRec cfg bal tok (executeBuyFailure amt em es now)).side = Side.BUY ∧
    (execBuyRec cfg bal tok (executeBuyFailure amt em es now)).success = 0 ∧
    (execBuyRec cfg bal tok (executeBuyFailure amt em es now)).error ≠ emptyStr := by
  refine ⟨?_, ?_, ?_, rfl, rfl, ?_⟩
  · simp [executeTrade, Nat.not_le.mpr hmax, hheld, hsize, executeBuyFailure]
  · simp [executeTrade, Nat.not_le.mpr hmax, hheld, hsize, executeBuyFailure]
  · simp [executeTrade, Nat.not_le.mpr hmax, hheld, hsize, executeBuyFailure]
  · simp only [execBuyRec, executeBuyFailure, Option.getD_some]
    split
    · exact hes
    · rename_i hem
      exact hem

def errStr : String := "fetch failed"

theorem failed_buy_ledger_no_position_witness :
    (executeTrade cfgOne true 10 tokA 90 narrStr
        (executeBuyFailure 1 emptyStr errStr 0) 0 DBState.empty).1.positions = [] ∧
    (executeTrade cfgOne true 10 tokA 90 narrStr
        (executeBuyFailure 1 emptyStr errStr 0) 0 DBState.empty).2 =
      ExecOutcome.buyFailed ∧
    (execBuyRec cfgOne 10 tokA (executeBuyFailure 1 emptyStr errStr 0)).error ≠
      emptyStr := by
  have h := failed_buy_ledger_no_position cfgOne 10 tokA 90 narrStr 0 DBState.empty 1
    emptyStr errStr (by decide) (by decide)
    (by norm_num [execTradeSize, cfgOne, min_def]) (by decide)
  exact ⟨h.2.1, h.1, h.2.2.2.2.2⟩

/- ============================================================
   C8 — reasoning-response parse failures degrade to sentinels
   ============================================================ -/

/-- C8.  Whenever the cleaned reasoning text fails to parse, `llmScore`
    returns the sentinel {score 0, signal SKIP} and
    `llmNarrativeAnalysis` returns the empty narrative set; both are
    total functions of the parse outcome, so no parse failure escapes
    to the caller. -/
theorem llm_parse_failure_sentinel (parseScore : String → Option ScoreResult)
    (parseNarr : String → Option NarrativeAnalysis) (raw : String)
    (hs : parseScore (cleanLLMResponse raw) = none)
    (hn : parseNarr (cleanLLMResponse raw) = none) :
    llmScore parseScore raw =
      { score := 0, reasoning := parseFailureReasoning, signal := skipSignal } ∧
    llmNarrativeAnalysis parseNarr raw = { narratives := [] } := by
  constructor
  · simp [llmScore, hs]
  · simp [llmNarrativeAnalysis, hn]

def rawSample : String := "this is not valid json"

theorem llm_parse_failure_sentinel_witness :
    llmScore (fun _ => none) rawSample =
      { score := 0, reasoning := parseFailureReasoning, signal := skipSignal } ∧
    llmNarrativeAnalysis (fun _ => none) rawSample = { narratives := [] } :=
  llm_parse_failure_sentinel (fun _ => none) (fun _ => none) rawSample rfl rfl

/- ============================================================
   C4 — risk-rule precedence and one close per position per tick
   ============================================================ -/

lemma riskActions_zero (cfg : SwarmConfig) (liqFetch : String → Option TokenInfo)
    (L : List Position) (pid : ℕ) (h : ∀ p ∈ L, p.id ≠ pid) :
    (L.filterMap (fun p => (riskDecision cfg liqFetch p).map (fun r => (p.id, r)))).countP
      (fun a => a.1 == pid) = 0 := by
  induction L with
  | nil => rfl
  | cons p L ih =>
    have hp : p.id ≠ pid := h p (List.mem_cons_self _ _)
    have ihL := ih (fun q hq => h q (List.mem_cons_of_mem _ hq))
    cases hd : riskDecision cfg liqFetch p with
    | none => simpa [List.filterMap_cons, hd] using ihL
    | some r => simp [List.filterMap_cons, hd, List.countP_cons, hp, ihL]

lemma riskActions_count_le (cfg : SwarmConfig) (liqFetch : String → Option TokenInfo)
    (L : List Position) (pid : ℕ) (h : (L.map Position.id).Nodup) :
    (L.filterMap (fun p => (riskDecision cfg liqFetch p).map (fun r => (p.id, r)))).countP
      (fun a => a.1 == pid) ≤ 1 := by
  induction L with
  | nil => simp
  | cons p L ih =>
    rw [List.map_cons, List.nodup_cons] at h
    by_cases hp : p.id = pid
    · have hnone : ∀ q ∈ L, q.id ≠ pid := by
        intro q hq hq'
        exact h.1 (by rw [hp, ← hq']; exact List.mem_map_of_mem Position.id hq)
      have hzero := riskActions_zero cfg liqFetch L pid hnone
      cases hd : riskDecision cfg liqFetch p with
      | none => simp [List.filterMap_cons, hd, hzero]
      | some r => simp [List.filterMap_cons, hd, List.countP_cons, hp, hzero]
    · cases hd : riskDecision cfg liqFetch p with
      | none => simpa [List.filterMap_cons, hd] using ih h.2
      | some r =>
        have := ih h.2
        simp [List.filterMap_cons, hd, List.countP_cons, hp]
        omega

/-- C4.  For a position whose pnl simultaneously meets the stop-loss
    and take-profit thresholds (possible at boundary configurations),
    the rule cascade picks STOPPED — the stop-loss check runs first and
    no later rule is evaluated — and one risk tick issues at most one
    close per position id. -/
theorem riskManager_stop_precedence (cfg : SwarmConfig)
    (liqFetch : String → Option TokenInfo) (s : DBState) (p : Position) (pid : ℕ)
    (hsl : p.pnlPct ≤ -cfg.stopLossPct) (htp : cfg.takeProfitPct ≤ p.pnlPct)
    (hnd : (s.positions.map Position.id).Nodup) :
    riskDecision cfg liqFetch p = some PosStatus.STOPPED ∧
    (riskTickActions cfg liqFetch s).countP (fun a => a.1 == pid) ≤ 1 := by
  constructor
  · simp [riskDecision, hsl]
  · have hsub : List.Sublist
        ((s.positions.filter (fun q => q.status == PosStatus.OPEN)).map Position.id)
        (s.positions.map Position.id) :=
      (List.filter_sublist _).map Position.id
    exact riskActions_count_le cfg liqFetch _ pid (hnd.sublist hsub)

/-- Boundary configuration: stopLossPct = takeProfitPct = 0, so a
    position at pnl 0 satisfies both rules at once. -/
def cfgZero : SwarmConfig := { cfgOne with stopLossPct := 0, takeProfitPct := 0 }

def posBoundary : Position :=
  { id := 3, tokenAddress := addrB, symbol := symB, entryPrice := 2, entrySol := 1,
    tokenAmount := 50, tokenDecimals := 6, currentPrice := 2, pnlPct := 0,
    status := PosStatus.OPEN, entryTx := txStr, exitTx := none, entryTime := 0,
    exitTime := none, score := 85, narrative := narrStr }

def noFetch : String → Option TokenInfo := fun _ => none

theorem riskManager_stop_precedence_witness :
    riskDecision cfgZero noFetch posBoundary = some PosStatus.STOPPED ∧
    (riskTickActions cfgZero noFetch sHolding).countP (fun a => a.1 == 1) ≤ 1 :=
  riskManager_stop_precedence cfgZero noFetch sHolding posBoundary 1
    (by decide) (by decide) (by decide)

/- ============================================================
   C9 — closePosition writes pnl_pct back at its pre-sell value
   ============================================================ -/

def pos9 : Position :=
  { id := 1, tokenAddress := addrA, symbol := symA, entryPrice := 1, entrySol := 1,
    tokenAmount := 100, tokenDecimals := 6, currentPrice := 1, pnlPct := 50,
    status := PosStatus.OPEN, entryTx := txStr, exitTx := none, entryTime := 0,
    exitTime := none, score := 90, narrative := narrStr }

def s9 : DBState := ⟨[pos9], [], 2⟩

def sellRes9 : TradeResult :=
  { success := true, txHash := some txStr, error := none, inputAmount := 100,
    outputAmount := some 2, price := some 2, timestamp := 7 }

/-- The row `closePosition` produces from `pos9` on the `sellRes9`
    sell: status STOPPED, exit fields set, current_price 2, pnl_pct
    still the pre-sell 50. -/
def pos9closed : Position :=
  { id := 1, tokenAddress := addrA, symbol := symA, entryPrice := 1, entrySol := 1,
    tokenAmount := 100, tokenDecimals := 6, currentPrice := 2, pnlPct := 50,
    status := PosStatus.STOPPED, entryTx := txStr, exitTx := some txStr, entryTime := 0,
    exitTime := some 7, score := 90, narrative := narrStr }

/-- C9.  On a successful sell, `closePosition` moves the row to the
    close reason and records exit_tx, exit_time and current_price (the
    sale price when truthy), but writes pnl_pct back at its pre-sell
    value; the concrete instance shows the closed row's pnl_pct
    disagreeing with (currentPrice − entryPrice)/entryPrice × 100. -/
theorem closePosition_preserves_pnlPct (pid : ℕ) (reason : PosStatus)
    (res : TradeResult) (now : ℕ) (s : DBState) (pos : Position)
    (hfind : s.positions.find? (fun p => p.id == pid) = some pos)
    (hopen : pos.status = PosStatus.OPEN) (hsucc : res.success = true) :
    (∀ q ∈ (closePosition true pid reason res now s).positions, q.id = pid →
       q.status = reason ∧ q.pnlPct = pos.pnlPct ∧
       q.exitTx = some (res.txHash.getD emptyStr) ∧ q.exitTime = some now ∧
       q.currentPrice = salePrice res pos.currentPrice) ∧
    (∃ q, (closePosition true 1 PosStatus.STOPPED sellRes9 7 s9).positions = [q] ∧
       q.pnlPct ≠ (q.currentPrice - q.entryPrice) / q.entryPrice * 100) := by
  constructor
  · intro q hq hqid
    simp only [closePosition, hfind, hopen, hsucc] at hq
    simp only [ne_eq, not_true_eq_false, if_false, if_true, Bool.true_eq_false,
      ite_false] at hq
    rcases List.mem_map.mp hq with ⟨p, hp, hgp⟩
    by_cases hpid : p.id = pid
    · rw [if_pos (by simpa using hpid)] at hgp
      subst hgp
      exact ⟨rfl, rfl, rfl, rfl, rfl⟩
    · rw [if_neg (by simpa using hpid)] at hgp
      subst hgp
      exact absurd hqid hpid
  · refine ⟨pos9closed, by decide, by norm_num [pos9closed, pos9]⟩

theorem closePosition_preserves_pnlPct_witness :
    pos9closed ∈ (closePosition true 1 PosStatus.STOPPED sellRes9 7 s9).positions ∧
    pos9closed.status = PosStatus.STOPPED ∧ pos9closed.pnlPct = pos9.pnlPct ∧
    pos9closed.exitTx = some (sellRes9.txHash.getD emptyStr) ∧
    pos9closed.exitTime = some 7 ∧
    pos9closed.currentPrice = salePrice sellRes9 pos9.currentPrice := by
  have hmem : pos9closed ∈
      (closePosition true 1 PosStatus.STOPPED sellRes9 7 s9).positions := by decide
  have h := (closePosition_preserves_pnlPct 1 PosStatus.STOPPED sellRes9 7 s9 pos9
    (by decide) (by decide) (by decide)).1 pos9closed hmem (by decide)
  exact ⟨hmem, h.1, h.2.1, h.2.2.1, h.2.2.2.1, h.2.2.2.2⟩

/- ============================================================
   C6 — price updater: pnl formula and failure isolation
   ============================================================ -/

/-- The row value the price updater writes for a successfully fetched
    position (swarm.ts:537-541). -/
def puUpdate (r : Position) (td : TokenInfo) : Position :=
  { r with currentPrice := td.price
           pnlPct := (td.price - r.entryPrice) / r.entryPrice * 100 }

lemma puStep_positions (fetch : String → Option TokenInfo) (st : DBState)
    (pos : Position) :
    (puStep fetch st pos).positions =
      st.positions.map (fun r => puRowStep fetch r pos) := by
  unfold puStep puRowStep
  cases hf : fetch pos.tokenAddress with
  | none => simp
  | some td => rfl

/-- The whole price-updater pass acts row-wise: each row of the result
    is the fold of the per-row step over the same snapshot list. -/
lemma foldl_puStep_positions (fetch : String → Option TokenInfo) (L : List Position)
    (st : DBState) :
    (L.foldl (puStep fetch) st).positions =
      st.positions.map (fun r => L.foldl (puRowStep fetch) r) := by
  induction L generalizing st with
  | nil => simp
  | cons pos L ih =>
    simp only [List.foldl_cons]
    rw [ih, puStep_positions, List.map_map]
    rfl

lemma puRowStep_immut (fetch : String → Option TokenInfo) (r pos : Position) :
    (puRowStep fetch r pos).id = r.id ∧ (puRowStep fetch r pos).status = r.status ∧
    (puRowStep fetch r pos).entryPrice = r.entryPrice ∧
    (puRowStep fetch r pos).tokenAddress = r.tokenAddress := by
  unfold puRowStep
  cases hf : fetch pos.tokenAddress with
  | none => exact ⟨rfl, rfl, rfl, rfl⟩
  | some td => by_cases hid : r.id = pos.id <;> simp [hid]

lemma rowFold_immut (fetch : String → Option TokenInfo) (L : List Position)
    (r : Position) :
    (L.foldl (puRowStep fetch) r).id = r.id ∧
    (L.foldl (puRowStep fetch) r).status = r.status ∧
    (L.foldl (puRowStep fetch) r).entryPrice = r.entryPrice ∧
    (L.foldl (puRowStep fetch) r).tokenAddress = r.tokenAddress := by
  induction L generalizing r with
  | nil => exact ⟨rfl, rfl, rfl, rfl⟩
  | cons p L ih =>
    simp only [List.foldl_cons]
    obtain ⟨h1, h2, h3, h4⟩ := puRowStep_immut fetch r p
    obtain ⟨g1, g2, g3, g4⟩ := ih (puRowStep fetch r p)
    exact ⟨g1.trans h1, g2.trans h2, g3.trans h3, g4.trans h4⟩

lemma puRowStep_of_updated (fetch : String → Option TokenInfo) (r pos : Position)
    (td : TokenInfo) (hf : fetch r.tokenAddress = some td)
    (hinj : pos.id = r.id → pos = r) :
    puRowStep fetch (puUpdate r td) pos = puUpdate r td := by
  unfold puRowStep
  cases hfp : fetch pos.tokenAddress with
  | none => rfl
  | some td2 =>
    by_cases hid : (puUpdate r td).id = pos.id
    · have hpr : pos = r := hinj hid.symm
      subst hpr
      rw [hf] at hfp
      injection hfp with htd
      subst htd
      simp [puUpdate]
    · simp [hid]

lemma rowFold_stable (fetch : String → Option TokenInfo) (td : TokenInfo)
    (r : Position) :
    ∀ L : List Position, (∀ p ∈ L, p.id = r.id → p = r) →
      fetch r.tokenAddress = some td →
      L.foldl (puRowStep fetch) (puUpdate r td) = puUpdate r td := by
  intro L
  induction L with
  | nil => intro _ _; rfl
  | cons p L ih =>
    intro hinj hf
    simp only [List.foldl_cons]
    rw [puRowStep_of_updated fetch r p td hf (hinj p (List.mem_cons_self _ _))]
    exact ih (fun q hq => hinj q (List.mem_cons_of_mem _ hq)) hf

/-- A snapshot position whose fetch succeeds, and whose id is unique in
    the snapshot, ends the pass exactly price-updated. -/
lemma rowFold_updates (fetch : String → Option TokenInfo) (td : TokenInfo)
    (r : Position) :
    ∀ L : List Position, r ∈ L → fetch r.tokenAddress = some td →
      (∀ p ∈ L, p.id = r.id → p = r) →
      L.foldl (puRowStep fetch) r = puUpdate r td := by
  intro L
  induction L with
  | nil => intro hmem; cases hmem
  | cons p L ih =>
    intro hmem hf hinj
    simp only [List.foldl_cons]
    by_cases hpr : p = r
    · subst hpr
      have hstep : puRowStep fetch p p = puUpdate p td := by
        unfold puRowStep
        rw [hf]
        simp [puUpdate]
      rw [hstep]
      exact rowFold_stable fetch td p L (fun q hq => hinj q (List.mem_cons_of_mem _ hq)) hf
    · have hid : p.id ≠ r.id := fun h => hpr (hinj p (List.mem_cons_self _ _) h)
      have hstep : puRowStep fetch r p = r := by
        unfold puRowStep
        cases hfp : fetch p.tokenAddress with
        | none => rfl
        | some td2 =>
          have hne : ¬ r.id = p.id := fun h => hid h.symm
          simp [hne]
      rw [hstep]
      have hmem2 : r ∈ L := by
        rcases List.mem_cons.mp hmem with h | h
        · exact absurd h.symm hpr
        · exact h
      exact ih hmem2 hf (fun q hq => hinj q (List.mem_cons_of_mem _ hq))

/-- C6.  Immediately after a price-updater tick, every OPEN position
    whose live token fetch succeeded satisfies
    pnlPct = (price − entryPrice)/entryPrice × 100 and carries the
    fetched price; `fetch` is arbitrary elsewhere, so a failed fetch
    for any other position does not disturb this row's update. -/
theorem priceUpdater_pnl_formula (fetch : String → Option TokenInfo) (s : DBState)
    (hnd : (s.positions.map Position.id).Nodup)
    (q : Position) (hq : q ∈ (runPriceUpdater fetch s).positions)
    (hopen : q.status = PosStatus.OPEN)
    (td : TokenInfo) (hf : fetch q.tokenAddress = some td) :
    q.pnlPct = (td.price - q.entryPrice) / q.entryPrice * 100 ∧
    q.currentPrice = td.price := by
  unfold runPriceUpdater at hq
  rw [foldl_puStep_positions] at hq
  rcases List.mem_map.mp hq with ⟨r, hr, hqr⟩
  obtain ⟨h1, h2, h3, h4⟩ := rowFold_immut fetch
    (s.positions.filter (fun p => p.status == PosStatus.OPEN)) r
  have hropen : r.status = PosStatus.OPEN := by rw [← h2, hqr]; exact hopen
  have hrf : fetch r.tokenAddress = some td := by rw [← h4, hqr]; exact hf
  have hrmem : r ∈ s.positions.filter (fun p => p.status == PosStatus.OPEN) :=
    List.mem_filter.mpr ⟨hr, by simp [hropen]⟩
  have hinj : ∀ p ∈ s.positions.filter (fun p => p.status == PosStatus.OPEN),
      p.id = r.id → p = r := by
    intro p hp hpid
    exact List.inj_on_of_nodup_map hnd (List.mem_of_mem_filter hp) hr hpid
  have hfold := rowFold_updates fetch td r _ hrmem hrf hinj
  rw [hfold] at hqr
  subst hqr
  exact ⟨rfl, rfl⟩

def posOpen6 : Position :=
  { id := 1, tokenAddress := addrA, symbol := symA, entryPrice := 1, entrySol := 1,
    tokenAmount := 100, tokenDecimals := 6, currentPrice := 1, pnlPct := 0,
    status := PosStatus.OPEN, entryTx := txStr, exitTx := none, entryTime := 0,
    exitTime := none, score := 90, narrative := narrStr }

def s6 : DBState := ⟨[posOpen6], [], 2⟩

def td6 : TokenInfo :=
  { address := addrA, symbol := symA, name := nameA, mcap := 100000, price := 2,
    volume24h := 1, liquidity := 5000 }

def fetch6 : String → Option TokenInfo := fun _ => some td6

theorem priceUpdater_pnl_formula_witness :
    (puUpdate posOpen6 td6).pnlPct =
      (td6.price - (puUpdate posOpen6 td6).entryPrice) /
        (puUpdate posOpen6 td6).entryPrice * 100 ∧
    (puUpdate posOpen6 td6).currentPrice = td6.price := by
  have hlist : (runPriceUpdater fetch6 s6).positions = [puUpdate posOpen6 td6] := rfl
  exact priceUpdater_pnl_formula fetch6 s6 (by decide) (puUpdate posOpen6 td6)
    (by rw [hlist]; exact List.mem_singleton.mpr rfl) rfl td6 rfl

end Swarm
